import Mathlib

/-!
Verification development for the Tuya duplex UDP audio streaming firmware:
G.711 u-law codec, UDP audio transport, mic streaming pipeline and speaker
streaming pipeline (jitter buffer, receiver, playback, control functions).

Shallow embedding conventions:
* C `int16_t` values are `Int` kept in range via `wrap16` (two's-complement
  narrowing, as performed by the target compilers).
* C `uint8_t` values are `Nat` in `[0, 255]`.
* The arithmetic right shift of a (possibly negative) C `int` is floor
  division by a power of two (`cshr`), matching the target's arithmetic
  shift; `& 0x0F` on a two's-complement value is `emod 16`.
* OS and network calls (socket create, resolve, thread create, bytes
  reported sent) are parameters of the embedded functions.
-/

/-- Two's-complement narrowing of an integer to `int16_t`, as performed when
a C expression of type `int` is stored into an `int16_t` variable. -/
def wrap16 (v : Int) : Int := (v + 32768) % 65536 - 32768

/-- C arithmetic right shift on `int` (`v >> n`): floor division by `2 ^ n`,
which is what the target compilers produce for negative operands. -/
def cshr (v : Int) (n : Nat) : Int := Int.fdiv v (2 ^ n)

/-- Segment boundary table `seg_end` from `g711_codec.c`. -/
def seg_end : List Int := [0x3F, 0x7F, 0xFF, 0x1FF, 0x3FF, 0x7FF, 0xFFF, 0x1FFF]

/-- The `search` helper from `g711_codec.c`: index of the first table entry
that is `≥ val`, or the table size if none is. -/
def search (val : Int) : List Int → Nat
  | [] => 0
  | t :: ts => if val ≤ t then 0 else search val ts + 1

/-- `g711_linear_to_ulaw` from `g711_codec.c`.  The byte is assembled with
`|`, here written as addition of the disjoint bit fields `seg << 4` (low
nibble zero) and the 4-bit mantissa; `& 0x0F` on the shifted value is
`emod 16` (two's-complement low nibble). -/
def g711_linear_to_ulaw (pcm : Int) : Nat :=
  let mask : Nat := if pcm < 0 then 0x7F else 0xFF
  let pcm_val : Int := if pcm < 0 then wrap16 (-pcm) else pcm
  let pcm_val : Int := if pcm_val > 32635 then 32635 else pcm_val
  let pcm_val : Int := wrap16 (pcm_val + 0x84)
  let seg : Nat := search pcm_val seg_end
  if 8 ≤ seg then 0x7F ^^^ mask
  else (seg * 16 + ((cshr pcm_val (seg + 3)).emod 16).toNat) ^^^ mask

/-- `g711_ulaw_to_linear` from `g711_codec.c`.  `~ulaw` on a `uint8_t` is
`255 - ulaw`; `ulaw & 0x0F` is `ulaw % 16`; `(ulaw & 0x70) >> 4` is
`ulaw / 16 % 8`; `ulaw & 0x80` is the test `128 ≤ ulaw`; `t <<= seg` narrows
through `int16_t`, hence `wrap16`. -/
def g711_ulaw_to_linear (ulaw0 : Nat) : Int :=
  let ulaw : Nat := 255 - ulaw0 % 256
  let t : Int := ((ulaw % 16) * 8 : Nat) + 0x84
  let t : Int := wrap16 (t * 2 ^ (ulaw / 16 % 8))
  if 128 ≤ ulaw then 0x84 - t else t - 0x84

/-- Decode-after-encode round trip of one sample through the repository's
G.711 implementation. -/
def g711_roundtrip (x : Int) : Int := g711_ulaw_to_linear (g711_linear_to_ulaw x)

/-- Subset of `OPERATE_RET` codes used by the audio modules. -/
inductive Ret where
  | OK
  | SOCK_ERR
  | INVALID_PARM
  | COM_ERROR
  | MUTEX_ERR
  | THREAD_ERR
  deriving DecidableEq

/-- Results of the OS and network primitives a call may consume, one field
per primitive (`tal_net_socket_create`, `tal_net_str2addr`,
`tal_net_gethostbyname`, `tal_mutex_create_init`, the three
`tal_thread_create_and_start` calls, `tal_system_get_millisecond`). -/
structure Env where
  sockfd : Int
  str2addr : Nat
  dns : Option Nat
  mutex_ok : Bool
  thread1_ok : Bool
  thread2_ok : Bool
  thread3_ok : Bool
  now : Nat

/-- The `udp_audio_ctx_t` globals of `udp_audio.c`. -/
structure UdpState where
  sock : Int
  server_addr : Nat
  server_port : Nat
  ready : Bool
  seq : Nat
  packets_sent : Nat

/-- Concatenation of a list of byte lists (used for datagram payloads and
for the total stream written into a ring buffer). -/
def flat (ls : List (List Nat)) : List Nat := ls.foldr (fun a b => a ++ b) []

/-- Little-endian byte serialisation of 16-bit PCM samples, as `memcpy`
lays an `int16_t` array out on the little-endian target. -/
def bytesLE (pcm : List Int) : List Nat :=
  flat (pcm.map (fun s => [((s.emod 65536).toNat) % 256, ((s.emod 65536).toNat) / 256]))

/-- `udp_audio_init` from `udp_audio.c`.  `env.sockfd` is the fd returned by
`tal_net_socket_create`, `env.str2addr` the address from `tal_net_str2addr`
(0 on failure). -/
def udp_audio_init (u : UdpState) (port : Nat) (env : Env) : Ret × UdpState :=
  if u.ready then (Ret.OK, u)
  else
    let u := { u with sock := env.sockfd }
    if u.sock < 0 then (Ret.SOCK_ERR, u)
    else if env.str2addr = 0 then (Ret.SOCK_ERR, { u with sock := -1 })
    else
      (Ret.OK, { u with server_addr := env.str2addr, server_port := port,
                        seq := 0, packets_sent := 0, ready := true })

/-- `udp_audio_send_pcm` from `udp_audio.c`.  `sent` is the byte count that
`tal_net_send_to` reported for this call; the middle component is the
datagram handed to `tal_net_send_to` (`none` when no send was attempted). -/
def udp_audio_send_pcm (u : UdpState) (pcm : List Int) (sent : Int) :
    Ret × Option (List Nat) × UdpState :=
  if u.ready = false ∨ u.sock < 0 then (Ret.SOCK_ERR, none, u)
  else
    let pcm_bytes : Nat := pcm.length * 2
    if pcm.length = 0 ∨ pcm_bytes > 700 - 1 then (Ret.INVALID_PARM, none, u)
    else
      let dgram : List Nat := u.seq :: bytesLE pcm
      if sent ≠ (1 + pcm_bytes : Nat) then (Ret.SOCK_ERR, some dgram, u)
      else (Ret.OK, some dgram,
            { u with seq := (u.seq + 1) % 256, packets_sent := u.packets_sent + 1 })

/-- `udp_audio_send` from `udp_audio.c`: payloads longer than
`UDP_PACKET_MAX_SIZE - 1 = 699` bytes are silently truncated. -/
def udp_audio_send (u : UdpState) (data : List Nat) (sent : Int) :
    Ret × Option (List Nat) × UdpState :=
  if u.ready = false ∨ u.sock < 0 then (Ret.SOCK_ERR, none, u)
  else
    let len : Nat := if data.length > 700 - 1 then 700 - 1 else data.length
    let dgram : List Nat := u.seq :: data.take len
    if sent ≠ (1 + len : Nat) then (Ret.SOCK_ERR, some dgram, u)
    else (Ret.OK, some dgram,
          { u with seq := (u.seq + 1) % 256, packets_sent := u.packets_sent + 1 })

/-- `udp_audio_send_ping` from `udp_audio.c`: a single `0xFF` marker byte,
leaving the sequence counter and packet counter untouched. -/
def udp_audio_send_ping (u : UdpState) (sent : Int) :
    Ret × Option (List Nat) × UdpState :=
  if u.ready = false ∨ u.sock < 0 then (Ret.SOCK_ERR, none, u)
  else
    let dgram : List Nat := [0xFF]
    if sent ≠ (1 : Nat) then (Ret.SOCK_ERR, some dgram, u)
    else (Ret.OK, some dgram, u)

/-- `udp_audio_close` from `udp_audio.c`. -/
def udp_audio_close (u : UdpState) : UdpState :=
  { u with sock := -1, ready := false, seq := 0, packets_sent := 0 }

/-- `udp_audio_is_ready` from `udp_audio.c`. -/
def udp_audio_is_ready (u : UdpState) : Bool := u.ready

/-- `JITTER_BUFFER_SIZE` from `speaker_streaming.c` (3 s of 16 kHz 16-bit
mono audio). -/
def JCAP : Nat := 96000

/-- `PREFILL_THRESHOLD` from `speaker_streaming.c` (500 ms). -/
def PREFILL_THRESHOLD : Nat := 16000

/-- `PLAYBACK_CHUNK_SIZE` from `speaker_streaming.c` (20 ms). -/
def PLAYBACK_CHUNK_SIZE : Nat := 640

/-- The speaker jitter ring buffer globals of `speaker_streaming.c`
(`g_jitter_buffer`, `g_buf_head`, `g_buf_tail`, `g_buf_count`,
`g_overruns`). -/
structure JBuf where
  data : Nat → Nat
  head : Nat
  tail : Nat
  count : Nat
  overruns : Nat

/-- The jitter buffer as reset by `speaker_streaming_init` (indices zeroed,
storage `memset` to 0). -/
def jb0 : JBuf := { data := fun _ => 0, head := 0, tail := 0, count := 0, overruns := 0 }

/-- One iteration of the byte-copy loop inside `jitter_buffer_write`. -/
def jwriteByte (s : JBuf) (b : Nat) : JBuf :=
  { s with data := Function.update s.data s.head b, head := (s.head + 1) % JCAP }

/-- `jitter_buffer_write` from `speaker_streaming.c`: on overflow the oldest
bytes are dropped by advancing the tail, then all `len` bytes are written. -/
def jitter_buffer_write (s : JBuf) (w : List Nat) : JBuf :=
  if w.length = 0 then s
  else
    let s1 :=
      if JCAP < s.count + w.length then
        let overflow := s.count + w.length - JCAP
        { s with tail := (s.tail + overflow) % JCAP,
                 count := s.count - overflow,
                 overruns := s.overruns + 1 }
      else s
    let s2 := w.foldl jwriteByte s1
    { s2 with count := s2.count + w.length }

/-- The `n` bytes stored at ring positions `t, t+1, …` (mod `JCAP`) of a
byte store `d`; this is what the read loop of `jitter_buffer_read`
copies out. -/
def ringRead (d : Nat → Nat) (t n : Nat) : List Nat :=
  (List.range n).map (fun i => d ((t + i) % JCAP))

/-- `jitter_buffer_read` from `speaker_streaming.c`: copies
`min len count` bytes from the tail and advances it. -/
def jitter_buffer_read (s : JBuf) (len : Nat) : List Nat × JBuf :=
  let toRead := min len s.count
  (ringRead s.data s.tail toRead,
   { s with tail := (s.tail + toRead) % JCAP, count := s.count - toRead })

/-- `jitter_buffer_level` from `speaker_streaming.c`. -/
def jitter_buffer_level (s : JBuf) : Nat := s.count

/-- State touched by the speaker receiver and playback tasks of
`speaker_streaming.c`: the jitter buffer, the prefill latch
`g_playback_started`, the statistics counters, and the list of chunks
handed to `tdl_audio_play` (the hardware sink). -/
structure SpkState where
  jb : JBuf
  playback_started : Bool
  packets_received : Nat
  bytes_received : Nat
  underruns : Nat
  play_errors : Nat
  sink : List (List Nat)

/-- Task-visible speaker state right after `speaker_streaming_init`. -/
def spk0 : SpkState :=
  { jb := jb0, playback_started := false, packets_received := 0,
    bytes_received := 0, underruns := 0, play_errors := 0, sink := [] }

/-- One iteration of `speaker_rx_task` from `speaker_streaming.c`, applied
to the datagram `tal_net_recvfrom` returned (`[]` stands for a timeout or
error, i.e. `len <= 0`).  Length-1 datagrams are discarded as pings; longer
datagrams are counted and written to the jitter buffer in full. -/
def speaker_rx_step (s : SpkState) (dgram : List Nat) : SpkState :=
  if dgram.length = 0 then s
  else if dgram.length = 1 then s
  else
    { s with packets_received := s.packets_received + 1,
             bytes_received := s.bytes_received + dgram.length,
             jb := jitter_buffer_write s.jb dgram }

/-- One iteration of `speaker_playback_task` from `speaker_streaming.c`:
before `g_playback_started` is latched, the task only polls the buffer
level against `PREFILL_THRESHOLD`; afterwards it plays one chunk when at
least one chunk is buffered and otherwise records an underrun.  `playOK`
is the result of `tdl_audio_play`. -/
def speaker_playback_tick (s : SpkState) (playOK : Bool) : SpkState :=
  if s.playback_started = false then
    if PREFILL_THRESHOLD ≤ jitter_buffer_level s.jb then
      { s with playback_started := true }
    else s
  else
    if PLAYBACK_CHUNK_SIZE ≤ jitter_buffer_level s.jb then
      let r := jitter_buffer_read s.jb PLAYBACK_CHUNK_SIZE
      if r.1.length = PLAYBACK_CHUNK_SIZE then
        if playOK then { s with jb := r.2, sink := s.sink ++ [r.1] }
        else { s with jb := r.2, sink := s.sink ++ [r.1],
                      play_errors := s.play_errors + 1 }
      else { s with jb := r.2 }
    else { s with underruns := s.underruns + 1 }

/-- Interleaved events of the two speaker tasks sharing the jitter buffer:
a receiver iteration delivering a datagram, or a playback iteration. -/
inductive SpkEv where
  | recv (dgram : List Nat)
  | tick (playOK : Bool)

/-- Apply one speaker task event. -/
def spk_step (s : SpkState) (e : SpkEv) : SpkState :=
  match e with
  | SpkEv.recv d => speaker_rx_step s d
  | SpkEv.tick ok => speaker_playback_tick s ok

/-- Run the speaker tasks from the freshly initialised state through an
arbitrary interleaving of receiver and playback iterations. -/
def spk_run (es : List SpkEv) : SpkState := es.foldl spk_step spk0

/-- Control-level speaker globals of `speaker_streaming.c`
(`g_speaker_active`, `g_udp_socket`, the mutex, the three thread handles,
the resolved VPS address, and the task-visible state `st`). -/
structure SpkCtl where
  active : Bool
  sock : Int
  mutex : Bool
  rx_thread : Bool
  playback_thread : Bool
  keepalive_thread : Bool
  vps_addr : Nat
  st : SpkState

/-- `speaker_streaming_init` from `speaker_streaming.c`.  The `env` fields
stand for the results of `tal_mutex_create_init`, `tal_net_str2addr`,
`tal_net_gethostbyname`, `tal_net_socket_create` and the three
`tal_thread_create_and_start` calls.  Bind failure only logs a warning.
A keepalive-thread failure also only logs a warning. -/
def speaker_streaming_init (s : SpkCtl) (host : List Char) (env : Env) : Ret × SpkCtl :=
  if host.length = 0 then (Ret.INVALID_PARM, s)
  else if s.active then (Ret.OK, s)
  else if env.mutex_ok = false then (Ret.MUTEX_ERR, s)
  else
    let s := { s with mutex := true }
    let s := { s with st := { s.st with jb := jb0, playback_started := false } }
    let addr : Nat := if env.str2addr ≠ 0 then env.str2addr else env.dns.getD 0
    if addr = 0 then (Ret.COM_ERROR, { s with mutex := false })
    else
      let s := { s with vps_addr := addr, sock := env.sockfd }
      if s.sock < 0 then (Ret.COM_ERROR, { s with sock := env.sockfd, mutex := false })
      else
        let s := { s with active := true }
        if env.thread1_ok = false then
          (Ret.THREAD_ERR, { s with active := false, sock := -1, mutex := false })
        else
          let s := { s with rx_thread := true }
          if env.thread2_ok = false then
            (Ret.THREAD_ERR, { s with active := false, sock := -1, mutex := false })
          else
            let s := { s with playback_thread := true }
            if env.thread3_ok = false then (Ret.OK, s)
            else (Ret.OK, { s with keepalive_thread := true })

/-- `speaker_streaming_stop` from `speaker_streaming.c`: early return when
already stopped, otherwise clear the flag, close the socket, delete the
three threads and release the mutex. -/
def speaker_streaming_stop (s : SpkCtl) : Ret × SpkCtl :=
  if s.active = false then (Ret.OK, s)
  else
    (Ret.OK, { s with active := false, sock := -1,
                      rx_thread := false, playback_thread := false,
                      keepalive_thread := false, mutex := false })

/-- `MIC_FRAME_SIZE_PCM` from `mic_streaming.c` (one 20 ms frame). -/
def MIC_FRAME_SIZE_PCM : Nat := 640

/-- `MAX_BUFFER_BYTES` from the drain task of `mic_streaming.c`
(bloat threshold, 200 ms). -/
def MAX_BUFFER_BYTES : Nat := 6400

/-- Modelled from the spec: `tuya_ring_buff_read` (the Tuya SDK ring buffer
used by the mic pipeline is not part of this repository's sources).  Per
spec section 4.1, `read(buf, len)` copies at most `len` bytes, bounded by
`used_count`, and advances the tail; the buffer content is modelled as the
byte list still queued. -/
def tuya_ring_buff_read (c : List Nat) (n : Nat) : List Nat × List Nat :=
  (c.take (min n c.length), c.drop (min n c.length))

/-- Modelled from the spec: `tuya_ring_buff_used_size_get` returns the
number of buffered bytes. -/
def tuya_ring_buff_used_size_get (c : List Nat) : Nat := c.length

/-- The bloat-trim inner loop of `mic_streaming_task` in `mic_streaming.c`:
`while (used_size() > MIC_FRAME_SIZE_PCM) read one frame and discard it`. -/
def mic_trim_loop (c : List Nat) : List Nat :=
  if MIC_FRAME_SIZE_PCM < tuya_ring_buff_used_size_get c then
    mic_trim_loop (tuya_ring_buff_read c MIC_FRAME_SIZE_PCM).2
  else c
termination_by c.length
decreasing_by
  simp only [tuya_ring_buff_read, tuya_ring_buff_used_size_get, MIC_FRAME_SIZE_PCM,
    List.length_drop] at *
  omega

/-- The latency-protection step of `mic_streaming_task`: trim only when the
buffered amount exceeds the bloat threshold (source guard:
`if (data_len > MAX_BUFFER_BYTES)`). -/
def mic_bloat_check (c : List Nat) : List Nat :=
  if MAX_BUFFER_BYTES < tuya_ring_buff_used_size_get c then mic_trim_loop c else c

/-- The `mic_streaming_ctx_t` globals of `mic_streaming.c` (devkit
variant; the object-detection variant lacks only `watchdog_restarts`).
`ringbuf` is the content of the Tuya SDK ring buffer, modelled from the
spec as a byte list. -/
structure MicCtl where
  initialized : Bool
  streaming : Bool
  stream_thread : Bool
  keepalive_thread : Bool
  total_bytes_captured : Nat
  total_frames_sent : Nat
  dropped_frames : Nat
  watchdog_restarts : Nat
  last_send_time : Nat
  ringbuf : List Nat

/-- Observable actions of `mic_streaming_start`, in the order the source
performs them; used to state ordering properties. -/
inductive MicEv where
  | udpInit
  | ringReset
  | statsReset
  | setStreamingTrue
  | setStreamingFalse
  | startStreamTask
  | startKeepaliveTask
  | udpClose
  deriving DecidableEq

/-- Position of the first occurrence of `x` in an action trace (the trace
length if absent). -/
def posOf (x : MicEv) : List MicEv → Nat
  | [] => 0
  | e :: es => if e = x then 0 else posOf x es + 1

/-- `mic_streaming_start` from `mic_streaming.c` (devkit variant; the
object-detection variant performs the same steps in the same order, minus
the `watchdog_restarts` reset).  Returns the result code, the new mic and
transport state, and the trace of observable actions performed. -/
def mic_streaming_start (m : MicCtl) (u : UdpState) (_host : List Char) (port : Nat)
    (env : Env) : Ret × MicCtl × UdpState × List MicEv :=
  if m.initialized = false then (Ret.INVALID_PARM, m, u, [])
  else if m.streaming then (Ret.OK, m, u, [])
  else
    let r1 := udp_audio_init u port env
    if r1.1 ≠ Ret.OK then (r1.1, m, r1.2, [MicEv.udpInit])
    else
      let m := { m with ringbuf := [] }
      let m := { m with total_bytes_captured := 0, total_frames_sent := 0,
                        dropped_frames := 0, watchdog_restarts := 0,
                        last_send_time := env.now }
      let m := { m with streaming := true }
      if env.thread1_ok = false then
        (Ret.THREAD_ERR, { m with streaming := false }, udp_audio_close r1.2,
         [MicEv.udpInit, MicEv.ringReset, MicEv.statsReset, MicEv.setStreamingTrue,
          MicEv.setStreamingFalse, MicEv.udpClose])
      else
        let m := { m with stream_thread := true }
        if env.thread2_ok = false then
          (Ret.OK, m, r1.2,
           [MicEv.udpInit, MicEv.ringReset, MicEv.statsReset, MicEv.setStreamingTrue,
            MicEv.startStreamTask])
        else
          (Ret.OK, { m with keepalive_thread := true }, r1.2,
           [MicEv.udpInit, MicEv.ringReset, MicEv.statsReset, MicEv.setStreamingTrue,
            MicEv.startStreamTask, MicEv.startKeepaliveTask])

/-- `mic_streaming_stop` from `mic_streaming.c`: early return when not
streaming; otherwise clear the flag, delete the drain thread, close the
transport and reset the ring buffer (the keepalive thread exits on its own
once the transport is no longer ready). -/
def mic_streaming_stop (m : MicCtl) (u : UdpState) : Ret × MicCtl × UdpState :=
  if m.streaming = false then (Ret.OK, m, u)
  else
    let m := { m with streaming := false }
    let m := if m.stream_thread then { m with stream_thread := false } else m
    (Ret.OK, { m with ringbuf := [] }, udp_audio_close u)

/-- Claim C1: evaluation of the repository's G.711 round trip at the five samples
named by the spec.  The decoder does not invert the encoder: magnitudes come
back roughly quadrupled (0 ↦ 524, ±1000 ↦ ±5116) and the sign of -32768 is
lost (it decodes to 0), far outside u-law's per-segment quantization bound.
The cause is that `seg_end` in `g711_codec.c` is the A-law segment table
while `g711_ulaw_to_linear` is the standard u-law decoder. -/
theorem g711_roundtrip_values :
    g711_roundtrip (-32768) = 0 ∧ g711_roundtrip (-1000) = -5116 ∧
    g711_roundtrip 0 = 524 ∧ g711_roundtrip 1000 = 5116 ∧
    g711_roundtrip 32767 = 32124 := by
  decide

/-- Claim C2: a send that returns `OPRT_OK` (through `udp_audio_send_pcm` or
`udp_audio_send`) advances the transport's sequence counter by exactly one
modulo 256 and the transmitted datagram's first byte is the pre-call
counter; any non-OK outcome (not ready, invalid parameter, failed or short
send) and any `udp_audio_send_ping` call leaves the counter unchanged. -/
theorem udp_seq_discipline :
    (∀ (u : UdpState) (pcm : List Int) (sent : Int),
      ((udp_audio_send_pcm u pcm sent).1 = Ret.OK →
        (udp_audio_send_pcm u pcm sent).2.2.seq = (u.seq + 1) % 256 ∧
        ∃ rest, (udp_audio_send_pcm u pcm sent).2.1 = some (u.seq :: rest)) ∧
      ((udp_audio_send_pcm u pcm sent).1 ≠ Ret.OK →
        (udp_audio_send_pcm u pcm sent).2.2.seq = u.seq))
    ∧ (∀ (u : UdpState) (data : List Nat) (sent : Int),
      ((udp_audio_send u data sent).1 = Ret.OK →
        (udp_audio_send u data sent).2.2.seq = (u.seq + 1) % 256 ∧
        ∃ rest, (udp_audio_send u data sent).2.1 = some (u.seq :: rest)) ∧
      ((udp_audio_send u data sent).1 ≠ Ret.OK →
        (udp_audio_send u data sent).2.2.seq = u.seq))
    ∧ (∀ (u : UdpState) (sent : Int),
      (udp_audio_send_ping u sent).2.2.seq = u.seq) := by
  refine ⟨fun u pcm sent => ?_, fun u data sent => ?_, fun u sent => ?_⟩
  · simp only [udp_audio_send_pcm]
    split_ifs <;> simp
  · simp only [udp_audio_send]
    split_ifs <;> simp
  · simp only [udp_audio_send_ping]
    split_ifs <;> simp

/-- Witness for C2 at a concrete ready transport with sequence counter 7,
a 2-sample payload and a full 5-byte send. -/
theorem udp_seq_discipline_witness :
    (udp_audio_send_pcm ⟨3, 8, 5001, true, 7, 0⟩ [1, 2] 5).1 = Ret.OK ∧
    (udp_audio_send_pcm ⟨3, 8, 5001, true, 7, 0⟩ [1, 2] 5).2.2.seq = (7 + 1) % 256 ∧
    (∃ rest, (udp_audio_send_pcm ⟨3, 8, 5001, true, 7, 0⟩ [1, 2] 5).2.1 = some (7 :: rest)) ∧
    (udp_audio_send_ping ⟨3, 8, 5001, true, 7, 0⟩ 1).2.2.seq = 7 := by
  have h := (udp_seq_discipline.1 ⟨3, 8, 5001, true, 7, 0⟩ [1, 2] 5).1 (by decide)
  exact ⟨by decide, h.1, h.2, udp_seq_discipline.2.2 ⟨3, 8, 5001, true, 7, 0⟩ 1⟩

/-- Claim C10: on a ready transport, `udp_audio_send` with a payload longer than
699 bytes silently truncates it to its first 699 bytes, transmits the
700-byte datagram `[seq][first 699 bytes]`, and reports `OPRT_OK` when the
stack accepts all 700 bytes — the caller never learns bytes were cut. -/
theorem udp_send_truncation (u : UdpState) (data : List Nat) (sent : Int)
    (hr : u.ready = true) (hs : ¬ u.sock < 0) (hl : 700 - 1 < data.length) :
    (udp_audio_send u data sent).2.1 = some (u.seq :: data.take 699) ∧
    (sent = 700 → (udp_audio_send u data sent).1 = Ret.OK) := by
  simp only [udp_audio_send]
  rw [if_neg (by simp [hr, hs]), if_pos hl]
  split_ifs with h
  · refine ⟨by norm_num, fun hx => ?_⟩
    exact absurd (by rw [hx]; norm_num) h
  · exact ⟨by norm_num, fun _ => rfl⟩

/-- Witness for C10 on a 700-byte payload: the datagram is the sequence
byte followed by the first 699 payload bytes, and the call returns OK. -/
theorem udp_send_truncation_witness :
    (udp_audio_send ⟨3, 8, 5001, true, 7, 0⟩ (List.replicate 700 9) 700).2.1
      = some (7 :: (List.replicate 700 9).take 699) ∧
    ((700 : Int) = 700 →
      (udp_audio_send ⟨3, 8, 5001, true, 7, 0⟩ (List.replicate 700 9) 700).1 = Ret.OK) := by
  exact udp_send_truncation ⟨3, 8, 5001, true, 7, 0⟩ (List.replicate 700 9) 700
    (by decide) (by decide) (by rw [List.length_replicate]; norm_num)

/-- An initialized, idle mic pipeline. -/
def mGood : MicCtl := ⟨true, false, false, false, 0, 0, 0, 0, 0, []⟩

/-- A closed (fresh) transport. -/
def uFresh : UdpState := ⟨-1, 0, 0, false, 0, 0⟩

/-- An environment where every OS call succeeds. -/
def envGood : Env := ⟨3, 5, some 7, true, true, true, true, 42⟩

/-- An environment where `tal_net_socket_create` fails. -/
def envNoSock : Env := ⟨-1, 5, some 7, true, true, true, true, 42⟩

/-- An idle speaker pipeline. -/
def sIdle : SpkCtl := ⟨false, -1, false, false, false, false, 0, spk0⟩

/-- Claim C9: on an already-stopped pipeline, `mic_streaming_stop` and
`speaker_streaming_stop` return `OPRT_OK` and leave the whole state —
statistics counters included — unchanged, so a second Stop is a no-op. -/
theorem stop_idempotent_on_stopped :
    (∀ (m : MicCtl) (u : UdpState), m.streaming = false →
      mic_streaming_stop m u = (Ret.OK, m, u)) ∧
    (∀ s : SpkCtl, s.active = false →
      speaker_streaming_stop s = (Ret.OK, s)) := by
  constructor
  · intro m u h
    simp [mic_streaming_stop, h]
  · intro s h
    simp [speaker_streaming_stop, h]

/-- Witness for C9 on a concrete stopped mic pipeline (with nonzero stats)
and a concrete stopped speaker pipeline. -/
theorem stop_idempotent_on_stopped_witness :
    mic_streaming_stop ⟨true, false, false, false, 1, 2, 3, 4, 5, [6]⟩ ⟨-1, 0, 0, false, 0, 0⟩
      = (Ret.OK, ⟨true, false, false, false, 1, 2, 3, 4, 5, [6]⟩, ⟨-1, 0, 0, false, 0, 0⟩) ∧
    speaker_streaming_stop sIdle = (Ret.OK, sIdle) := by
  exact ⟨stop_idempotent_on_stopped.1 _ _ rfl, stop_idempotent_on_stopped.2 _ rfl⟩

/-- Claim C8: when socket creation or address resolution fails,
`mic_streaming_start` leaves the mic context untouched and the transport
closed, and `speaker_streaming_init` leaves the speaker pipeline idle with
no task flagged running; both return a non-OK code. -/
theorem start_failure_leaves_idle :
    (∀ (m : MicCtl) (u : UdpState) (host : List Char) (port : Nat) (env : Env),
      m.initialized = true → m.streaming = false → u.ready = false →
      (env.sockfd < 0 ∨ env.str2addr = 0) →
      (mic_streaming_start m u host port env).1 ≠ Ret.OK ∧
      (mic_streaming_start m u host port env).2.1 = m ∧
      (mic_streaming_start m u host port env).2.2.1.ready = false) ∧
    (∀ (s : SpkCtl) (host : List Char) (env : Env),
      host.length ≠ 0 → s.active = false →
      s.rx_thread = false → s.playback_thread = false → s.keepalive_thread = false →
      env.mutex_ok = true →
      (env.sockfd < 0 ∨ (env.str2addr = 0 ∧ env.dns.getD 0 = 0)) →
      (speaker_streaming_init s host env).1 ≠ Ret.OK ∧
      (speaker_streaming_init s host env).2.active = false ∧
      (speaker_streaming_init s host env).2.rx_thread = false ∧
      (speaker_streaming_init s host env).2.playback_thread = false ∧
      (speaker_streaming_init s host env).2.keepalive_thread = false) := by
  constructor
  · intro m u host port env h1 h2 h3 henv
    have hu : (udp_audio_init u port env).1 = Ret.SOCK_ERR ∧
        (udp_audio_init u port env).2.ready = false := by
      rcases henv with h | h
      · simp [udp_audio_init, h3, h]
      · by_cases hs : env.sockfd < 0 <;> simp [udp_audio_init, h3, h, hs]
    refine ⟨?_, ?_, ?_⟩ <;> simp [mic_streaming_start, h1, h2, hu.1, hu.2]
  · intro s host env hh hact hrx hpl hka hmu henv
    rcases henv with hsk | ⟨ha, hb⟩
    · refine ⟨?_, ?_, ?_, ?_, ?_⟩ <;>
        · simp [speaker_streaming_init, hh, hact, hmu, hsk, hrx, hpl, hka]
          split_ifs <;> simp
    · refine ⟨?_, ?_, ?_, ?_, ?_⟩ <;>
        simp [speaker_streaming_init, hh, hact, hmu, ha, hb, hrx, hpl, hka]

/-- Witness for C8 at a concrete failed socket creation for both the mic
start and the speaker init. -/
theorem start_failure_leaves_idle_witness :
    ((mic_streaming_start mGood uFresh ['h'] 5001 envNoSock).1 ≠ Ret.OK ∧
      (mic_streaming_start mGood uFresh ['h'] 5001 envNoSock).2.1 = mGood ∧
      (mic_streaming_start mGood uFresh ['h'] 5001 envNoSock).2.2.1.ready = false) ∧
    ((speaker_streaming_init sIdle ['h'] envNoSock).1 ≠ Ret.OK ∧
      (speaker_streaming_init sIdle ['h'] envNoSock).2.active = false ∧
      (speaker_streaming_init sIdle ['h'] envNoSock).2.rx_thread = false ∧
      (speaker_streaming_init sIdle ['h'] envNoSock).2.playback_thread = false ∧
      (speaker_streaming_init sIdle ['h'] envNoSock).2.keepalive_thread = false) := by
  exact ⟨start_failure_leaves_idle.1 mGood uFresh ['h'] 5001 envNoSock rfl rfl rfl
           (Or.inl (by decide)),
         start_failure_leaves_idle.2 sIdle ['h'] envNoSock (by decide) rfl rfl rfl rfl rfl
           (Or.inl (by decide))⟩

/-- Claim C6 counterexample: on the fully successful start path,
`mic_streaming_start` sets the streaming flag strictly BEFORE it starts the
drain task (the source comment even says "Start streaming flag first"), so
the flag is not set "only after those tasks are started". -/
theorem mic_start_flag_before_tasks_cex :
    (mic_streaming_start mGood uFresh ['h'] 5001 envGood).2.2.2
      = [MicEv.udpInit, MicEv.ringReset, MicEv.statsReset, MicEv.setStreamingTrue,
         MicEv.startStreamTask, MicEv.startKeepaliveTask] ∧
    ¬ (posOf MicEv.startStreamTask (mic_streaming_start mGood uFresh ['h'] 5001 envGood).2.2.2
        < posOf MicEv.setStreamingTrue
            (mic_streaming_start mGood uFresh ['h'] 5001 envGood).2.2.2) := by
  decide

/-- Claim C6 (amended): on a successful start from an initialized idle pipeline,
`mic_streaming_start` opens the transport, resets the ring buffer and
stats, sets the streaming flag to true, and only then starts the drain task
and the keepalive task (the hardware callback may thus begin forwarding
frames just before the drain task exists); it returns OK with both task
handles live. -/
theorem mic_start_order (m : MicCtl) (u : UdpState) (host : List Char) (port : Nat)
    (env : Env) (h1 : m.initialized = true) (h2 : m.streaming = false)
    (h3 : u.ready = false) (h4 : ¬ env.sockfd < 0) (h5 : env.str2addr ≠ 0)
    (h6 : env.thread1_ok = true) (h7 : env.thread2_ok = true) :
    (mic_streaming_start m u host port env).1 = Ret.OK ∧
    (mic_streaming_start m u host port env).2.1.streaming = true ∧
    (mic_streaming_start m u host port env).2.1.stream_thread = true ∧
    (mic_streaming_start m u host port env).2.1.keepalive_thread = true ∧
    (mic_streaming_start m u host port env).2.2.2
      = [MicEv.udpInit, MicEv.ringReset, MicEv.statsReset, MicEv.setStreamingTrue,
         MicEv.startStreamTask, MicEv.startKeepaliveTask] ∧
    posOf MicEv.setStreamingTrue (mic_streaming_start m u host port env).2.2.2
      < posOf MicEv.startStreamTask (mic_streaming_start m u host port env).2.2.2 := by
  have hu : (udp_audio_init u port env).1 = Ret.OK := by
    simp [udp_audio_init, h3, h4, h5]
  simp [mic_streaming_start, h1, h2, hu, h6, h7, posOf]

/-- Witness for C6 (amended) at the concrete successful environment. -/
theorem mic_start_order_witness :
    (mic_streaming_start mGood uFresh ['h'] 5001 envGood).1 = Ret.OK ∧
    (mic_streaming_start mGood uFresh ['h'] 5001 envGood).2.1.streaming = true ∧
    (mic_streaming_start mGood uFresh ['h'] 5001 envGood).2.1.stream_thread = true ∧
    (mic_streaming_start mGood uFresh ['h'] 5001 envGood).2.1.keepalive_thread = true ∧
    (mic_streaming_start mGood uFresh ['h'] 5001 envGood).2.2.2
      = [MicEv.udpInit, MicEv.ringReset, MicEv.statsReset, MicEv.setStreamingTrue,
         MicEv.startStreamTask, MicEv.startKeepaliveTask] ∧
    posOf MicEv.setStreamingTrue (mic_streaming_start mGood uFresh ['h'] 5001 envGood).2.2.2
      < posOf MicEv.startStreamTask
          (mic_streaming_start mGood uFresh ['h'] 5001 envGood).2.2.2 := by
  exact mic_start_order mGood uFresh ['h'] 5001 envGood rfl rfl rfl (by decide) (by decide)
    rfl rfl

/-- Length left in the mic ring buffer after the trim loop: unchanged when
at most one frame is buffered; otherwise one full frame when the buffered
amount is a multiple of the frame size, and the remainder modulo the frame
size when it is not. -/
theorem mic_trim_loop_length :
    ∀ (n : Nat) (c : List Nat), c.length = n →
      (mic_trim_loop c).length =
        if c.length ≤ 640 then c.length
        else if c.length % 640 = 0 then 640 else c.length % 640 := by
  intro n
  induction n using Nat.strong_induction_on with
  | _ n ih =>
    intro c hc
    rw [mic_trim_loop]
    by_cases h : MIC_FRAME_SIZE_PCM < tuya_ring_buff_used_size_get c
    · rw [if_pos h]
      simp only [tuya_ring_buff_used_size_get, MIC_FRAME_SIZE_PCM] at h
      have hd : ((tuya_ring_buff_read c MIC_FRAME_SIZE_PCM).2).length = c.length - 640 := by
        simp only [tuya_ring_buff_read, MIC_FRAME_SIZE_PCM, List.length_drop]
        omega
      have hrec := ih (c.length - 640) (by omega) _ hd
      rw [hrec, hd]
      have hmod : c.length % 640 = (c.length - 640) % 640 :=
        Nat.mod_eq_sub_mod (by omega)
      split_ifs <;> omega
    · rw [if_neg h]
      simp only [tuya_ring_buff_used_size_get, MIC_FRAME_SIZE_PCM] at h
      rw [if_pos (by omega)]

/-- Claim C5 counterexample: with 6500 buffered bytes (over the 6400-byte bloat
threshold but not a multiple of the 640-byte frame), the trim loop of
`mic_streaming_task` leaves 100 bytes, not exactly one 640-byte frame. -/
theorem mic_bloat_trim_cex :
    MAX_BUFFER_BYTES < tuya_ring_buff_used_size_get (List.replicate 6500 0) ∧
    tuya_ring_buff_used_size_get (mic_bloat_check (List.replicate 6500 0)) = 100 ∧
    (100 : Nat) ≠ MIC_FRAME_SIZE_PCM := by
  have h := mic_trim_loop_length (List.replicate 6500 (0 : Nat)).length
    (List.replicate 6500 0) rfl
  rw [List.length_replicate] at h
  norm_num at h
  refine ⟨?_, ?_, by norm_num [MIC_FRAME_SIZE_PCM]⟩
  · simp only [MAX_BUFFER_BYTES, tuya_ring_buff_used_size_get, List.length_replicate]
    omega
  · simp only [mic_bloat_check, tuya_ring_buff_used_size_get, MAX_BUFFER_BYTES,
      List.length_replicate]
    rw [if_pos (by omega : (6400 : Nat) < 6500)]
    exact h

/-- Claim C5 (amended): when the mic ring buffer holds more than the 6400-byte
bloat threshold, the trim loop leaves at most one frame (640 bytes), and
exactly one frame precisely when the buffered byte count was a multiple of
the frame size (as it is when the buffer holds whole 640-byte frames). -/
theorem mic_bloat_trim (c : List Nat)
    (h : MAX_BUFFER_BYTES < tuya_ring_buff_used_size_get c) :
    tuya_ring_buff_used_size_get (mic_bloat_check c) ≤ MIC_FRAME_SIZE_PCM ∧
    (c.length % MIC_FRAME_SIZE_PCM = 0 →
      tuya_ring_buff_used_size_get (mic_bloat_check c) = MIC_FRAME_SIZE_PCM) := by
  have ht := mic_trim_loop_length c.length c rfl
  simp only [mic_bloat_check, if_pos h]
  simp only [tuya_ring_buff_used_size_get, MAX_BUFFER_BYTES, MIC_FRAME_SIZE_PCM] at *
  constructor
  · split_ifs at ht <;> omega
  · intro h0
    split_ifs at ht <;> omega

/-- Witness for C5 (amended) at 7040 = 11 × 640 buffered bytes: the trim
leaves exactly one frame. -/
theorem mic_bloat_trim_witness :
    MAX_BUFFER_BYTES < tuya_ring_buff_used_size_get (List.replicate 7040 0) ∧
    ((List.replicate 7040 (0 : Nat)).length % MIC_FRAME_SIZE_PCM = 0 →
      tuya_ring_buff_used_size_get (mic_bloat_check (List.replicate 7040 0))
        = MIC_FRAME_SIZE_PCM) := by
  have h : MAX_BUFFER_BYTES < tuya_ring_buff_used_size_get (List.replicate 7040 (0 : Nat)) := by
    simp only [tuya_ring_buff_used_size_get, MAX_BUFFER_BYTES, List.length_replicate]
    omega
  exact ⟨h, (mic_bloat_trim _ h).2⟩

/-- Claim C7 counterexample: the receiver writes the ENTIRE 3-byte datagram
`[5, 10, 20]` into the jitter buffer — byte 0 (which the spec calls the
sequence number) included — rather than only the payload `[10, 20]`. -/
theorem speaker_rx_keeps_seq_byte_cex :
    (jitter_buffer_read (speaker_rx_step spk0 [5, 10, 20]).jb 3).1 = [5, 10, 20] ∧
    ¬ (jitter_buffer_read (speaker_rx_step spk0 [5, 10, 20]).jb 3).1 = [10, 20] := by
  decide

/-- Claim C7 (amended): the speaker receiver discards every length-1 datagram as
a ping without touching the statistics or the jitter buffer; every datagram
of length ≥ 2 is counted in the packet/byte statistics and appended to the
jitter buffer IN FULL — no sequence byte is stripped. -/
theorem speaker_rx_step_spec :
    (∀ (s : SpkState) (b : Nat), speaker_rx_step s [b] = s) ∧
    (∀ (s : SpkState) (d : List Nat), 2 ≤ d.length →
      (speaker_rx_step s d).packets_received = s.packets_received + 1 ∧
      (speaker_rx_step s d).bytes_received = s.bytes_received + d.length ∧
      (speaker_rx_step s d).jb = jitter_buffer_write s.jb d) := by
  constructor
  · intro s b
    simp [speaker_rx_step]
  · intro s d hd
    have h0 : ¬ d.length = 0 := by omega
    have h1 : ¬ d.length = 1 := by omega
    simp [speaker_rx_step, h0, h1]

/-- Witness for C7 (amended) on the concrete 3-byte datagram `[5, 10, 20]`
received in the fresh speaker state. -/
theorem speaker_rx_step_spec_witness :
    (speaker_rx_step spk0 [5, 10, 20]).packets_received = spk0.packets_received + 1 ∧
    (speaker_rx_step spk0 [5, 10, 20]).bytes_received = spk0.bytes_received + 3 ∧
    (speaker_rx_step spk0 [5, 10, 20]).jb = jitter_buffer_write spk0.jb [5, 10, 20] := by
  have h := speaker_rx_step_spec.2 spk0 [5, 10, 20] (by decide)
  exact ⟨h.1, h.2.1, h.2.2⟩

theorem flat_nil : flat [] = [] := rfl

theorem flat_cons (w : List Nat) (ws : List (List Nat)) : flat (w :: ws) = w ++ flat ws := rfl

theorem ringRead_length (d : Nat → Nat) (t n : Nat) : (ringRead d t n).length = n := by
  simp [ringRead]

theorem ringRead_mod (d : Nat → Nat) (t n : Nat) :
    ringRead d (t % JCAP) n = ringRead d t n := by
  simp only [ringRead, Nat.mod_add_mod]

theorem ringRead_succ (d : Nat → Nat) (t n : Nat) :
    ringRead d t (n + 1) = ringRead d t n ++ [d ((t + n) % JCAP)] := by
  simp [ringRead, List.range_succ]

/-- Writing one byte at ring position `(t + c) % JCAP` extends the `c` bytes
readable from `t` by that byte, as long as the region does not wrap onto
itself (`c < JCAP`). -/
theorem ringRead_update (d : Nat → Nat) (t c b : Nat) (hc : c < JCAP) :
    ringRead (Function.update d ((t + c) % JCAP) b) t (c + 1)
      = ringRead d t c ++ [b] := by
  rw [ringRead_succ]
  congr 1
  · simp only [ringRead]
    apply List.map_congr_left
    intro i hi
    have hi' : i < c := List.mem_range.mp hi
    apply Function.update_noteq
    intro he
    have h2 : i ≡ c [MOD JCAP] := Nat.ModEq.add_left_cancel' t he
    have h3 : i % JCAP = c % JCAP := h2
    rw [Nat.mod_eq_of_lt (lt_trans hi' hc), Nat.mod_eq_of_lt hc] at h3
    omega
  · simp [Function.update_same]

/-- Effect of the byte-copy loop of `jitter_buffer_write`: with the head at
offset `c` past the tail and no wrap onto live data, the loop appends `w`
to the readable region, advances the head by `w.length`, and leaves tail,
count and overruns untouched. -/
theorem jwrite_fold (w : List Nat) : ∀ (s : JBuf) (c : Nat),
    s.head = (s.tail + c) % JCAP → c + w.length ≤ JCAP →
    (w.foldl jwriteByte s).tail = s.tail ∧
    (w.foldl jwriteByte s).count = s.count ∧
    (w.foldl jwriteByte s).overruns = s.overruns ∧
    (w.foldl jwriteByte s).head = (s.tail + (c + w.length)) % JCAP ∧
    ringRead (w.foldl jwriteByte s).data s.tail (c + w.length)
      = ringRead s.data s.tail c ++ w := by
  induction w with
  | nil =>
    intro s c hh _
    simp [hh]
  | cons a w ih =>
    intro s c hh hc
    rw [List.length_cons] at hc
    have hcJ : c < JCAP := by omega
    have htail : (jwriteByte s a).tail = s.tail := rfl
    have hh1 : (jwriteByte s a).head = ((jwriteByte s a).tail + (c + 1)) % JCAP := by
      simp only [jwriteByte, hh, htail]
      rw [Nat.mod_add_mod, Nat.add_assoc]
    have hfold := ih (jwriteByte s a) (c + 1) hh1 (by omega)
    rw [htail] at hfold
    obtain ⟨f1, f2, f3, f4, f5⟩ := hfold
    have hupd : ringRead (jwriteByte s a).data s.tail (c + 1)
        = ringRead s.data s.tail c ++ [a] := by
      simp only [jwriteByte, hh]
      exact ringRead_update s.data s.tail c a hcJ
    rw [hupd] at f5
    refine ⟨f1, f2, f3, ?_, ?_⟩
    · rw [List.foldl_cons, f4, List.length_cons]
      congr 1
      omega
    · rw [List.foldl_cons]
      have harith : c + (a :: w).length = (c + 1) + w.length := by
        rw [List.length_cons]; omega
      rw [harith, f5]
      simp

/-- Reading from an advanced tail drops the oldest bytes. -/
theorem ringRead_drop (d : Nat → Nat) (t o c : Nat) (_h : o ≤ c) :
    ringRead d (t + o) (c - o) = (ringRead d t c).drop o := by
  apply List.ext_getElem
  · simp [ringRead_length]
  · intro i h1 h2
    rw [List.getElem_drop]
    simp only [ringRead, List.getElem_map, List.getElem_range]
    rw [Nat.add_assoc]

/-- Functional characterisation of `jitter_buffer_write` under the ring
invariant: the count saturates at `JCAP` and the readable region becomes
the write appended to the surviving suffix of the old region. -/
theorem jitter_buffer_write_spec (s : JBuf) (w : List Nat)
    (hh : s.head = (s.tail + s.count) % JCAP) (hc : s.count ≤ JCAP)
    (hw : w.length ≤ JCAP) :
    (jitter_buffer_write s w).count = min (s.count + w.length) JCAP ∧
    (jitter_buffer_write s w).head
      = ((jitter_buffer_write s w).tail + (jitter_buffer_write s w).count) % JCAP ∧
    ringRead (jitter_buffer_write s w).data (jitter_buffer_write s w).tail
        (jitter_buffer_write s w).count
      = (ringRead s.data s.tail s.count).drop
          (s.count + w.length - (jitter_buffer_write s w).count) ++ w := by
  by_cases h0 : w.length = 0
  · have hnil : w = [] := List.length_eq_zero.mp h0
    subst hnil
    have he : jitter_buffer_write s [] = s := by
      simp [jitter_buffer_write]
    rw [he]
    refine ⟨?_, hh, ?_⟩
    · simp only [List.length_nil, Nat.add_zero]
      rw [min_eq_left hc]
    · simp
  · by_cases hov : JCAP < s.count + w.length
    · -- overflow branch: the tail advances by `ovf` before the copy loop
      have hovc : s.count + w.length - JCAP ≤ s.count := by omega
      have hh1 : (⟨s.data, s.head, (s.tail + (s.count + w.length - JCAP)) % JCAP,
          s.count - (s.count + w.length - JCAP), s.overruns + 1⟩ : JBuf).head
          = ((⟨s.data, s.head, (s.tail + (s.count + w.length - JCAP)) % JCAP,
              s.count - (s.count + w.length - JCAP), s.overruns + 1⟩ : JBuf).tail
             + (s.count - (s.count + w.length - JCAP))) % JCAP := by
        show s.head = ((s.tail + (s.count + w.length - JCAP)) % JCAP
            + (s.count - (s.count + w.length - JCAP))) % JCAP
        rw [Nat.mod_add_mod, hh]
        have harg : s.tail + (s.count + w.length - JCAP)
            + (s.count - (s.count + w.length - JCAP)) = s.tail + s.count := by omega
        rw [harg]
      have hb : (s.count - (s.count + w.length - JCAP)) + w.length ≤ JCAP := by omega
      obtain ⟨f1, f2, f3, f4, f5⟩ := jwrite_fold w
        ⟨s.data, s.head, (s.tail + (s.count + w.length - JCAP)) % JCAP,
         s.count - (s.count + w.length - JCAP), s.overruns + 1⟩
        (s.count - (s.count + w.length - JCAP)) hh1 hb
      dsimp only at f1 f2 f4 f5
      have hst : jitter_buffer_write s w
          = { (w.foldl jwriteByte
                ⟨s.data, s.head, (s.tail + (s.count + w.length - JCAP)) % JCAP,
                 s.count - (s.count + w.length - JCAP), s.overruns + 1⟩) with
              count := (w.foldl jwriteByte
                ⟨s.data, s.head, (s.tail + (s.count + w.length - JCAP)) % JCAP,
                 s.count - (s.count + w.length - JCAP), s.overruns + 1⟩).count
                + w.length } := by
        simp only [jitter_buffer_write, if_neg h0, if_pos hov]
      rw [hst]
      dsimp only
      rw [f1, f2, f4]
      refine ⟨by omega, rfl, ?_⟩
      · rw [f5]
        have hdrop : ringRead s.data ((s.tail + (s.count + w.length - JCAP)) % JCAP)
            (s.count - (s.count + w.length - JCAP))
            = (ringRead s.data s.tail s.count).drop (s.count + w.length - JCAP) := by
          rw [ringRead_mod]
          exact ringRead_drop s.data s.tail _ s.count hovc
        rw [hdrop]
        have hamt : s.count + w.length - (s.count - (s.count + w.length - JCAP) + w.length)
            = s.count + w.length - JCAP := by omega
        rw [hamt]
    · -- capacity suffices: the tail does not move
      obtain ⟨f1, f2, f3, f4, f5⟩ := jwrite_fold w s s.count hh (by omega)
      have hst : jitter_buffer_write s w
          = { (w.foldl jwriteByte s) with count := (w.foldl jwriteByte s).count + w.length } := by
        simp only [jitter_buffer_write, if_neg h0, if_neg hov]
      rw [hst]
      dsimp only
      rw [f1, f2, f4]
      refine ⟨by omega, rfl, ?_⟩
      rw [f5]
      simp

/-- Ring invariant carried through an arbitrary sequence of coverage
writes: the count is the total stream length saturated at capacity, and the
readable region is exactly the most recent suffix of the stream. -/
theorem jb_foldl_inv (ws : List (List Nat)) :
    ∀ (s : JBuf) (F : List Nat), (∀ w ∈ ws, w.length ≤ JCAP) →
      s.count = min F.length JCAP →
      s.head = (s.tail + s.count) % JCAP →
      ringRead s.data s.tail s.count = F.drop (F.length - s.count) →
      (ws.foldl jitter_buffer_write s).count = min (F ++ flat ws).length JCAP ∧
      (ws.foldl jitter_buffer_write s).head
        = ((ws.foldl jitter_buffer_write s).tail
           + (ws.foldl jitter_buffer_write s).count) % JCAP ∧
      ringRead (ws.foldl jitter_buffer_write s).data
          (ws.foldl jitter_buffer_write s).tail (ws.foldl jitter_buffer_write s).count
        = (F ++ flat ws).drop
            ((F ++ flat ws).length - (ws.foldl jitter_buffer_write s).count) := by
  induction ws with
  | nil =>
    intro s F _ hc hh hr
    simpa [flat_nil] using ⟨hc, hh, hr⟩
  | cons w ws ih =>
    intro s F hws hc hh hr
    have hwle : w.length ≤ JCAP := hws w (by simp)
    have hcle : s.count ≤ JCAP := by
      rw [hc]; exact min_le_right _ _
    have hcT : s.count ≤ F.length := by
      rw [hc]; exact min_le_left _ _
    obtain ⟨k1, k2, k3⟩ := jitter_buffer_write_spec s w hh hcle hwle
    have hcnew : (jitter_buffer_write s w).count ≤ s.count + w.length := by
      rw [k1]; exact min_le_left _ _
    have hlennew : w.length ≤ (jitter_buffer_write s w).count := by
      rw [k1]; omega
    have hc1 : (jitter_buffer_write s w).count = min (F ++ w).length JCAP := by
      rw [k1, hc, List.length_append]
      omega
    have hr1 : ringRead (jitter_buffer_write s w).data (jitter_buffer_write s w).tail
        (jitter_buffer_write s w).count
        = (F ++ w).drop ((F ++ w).length - (jitter_buffer_write s w).count) := by
      rw [k3, hr, List.drop_drop]
      have hle : (F ++ w).length - (jitter_buffer_write s w).count ≤ F.length := by
        rw [List.length_append]; omega
      rw [List.drop_append_of_le_length hle]
      congr 2
      rw [List.length_append]
      omega
    have := ih (jitter_buffer_write s w) (F ++ w)
      (fun v hv => hws v (by simp [hv])) hc1 k2 hr1
    simpa [flat_cons, List.append_assoc] using this

/-- Claim C4: after any finite sequence of `jitter_buffer_write` calls (each at
most the 96000-byte capacity, as every datagram the receiver can pass in
is, being bounded by its 1400-byte receive buffer), the buffered count
never exceeds the capacity, and reading everything back with
`jitter_buffer_read` returns exactly the most-recently-written suffix of
the concatenation of all bytes written — the oldest bytes are the ones
dropped on overflow. -/
theorem jitter_buffer_coverage (ws : List (List Nat))
    (hws : ∀ w ∈ ws, w.length ≤ JCAP) :
    (ws.foldl jitter_buffer_write jb0).count ≤ JCAP ∧
    (jitter_buffer_read (ws.foldl jitter_buffer_write jb0)
        (ws.foldl jitter_buffer_write jb0).count).1
      = (flat ws).drop
          ((flat ws).length - (ws.foldl jitter_buffer_write jb0).count) := by
  have h := jb_foldl_inv ws jb0 [] hws (by simp [jb0]) (by simp [jb0])
    (by simp [jb0, ringRead])
  simp only [List.nil_append] at h
  refine ⟨?_, ?_⟩
  · rw [h.1]
    exact min_le_right _ _
  · simp only [jitter_buffer_read, min_self]
    exact h.2.2

/-- Witness for C4 on the write sequence `[[1, 2, 3]]`. -/
theorem jitter_buffer_coverage_witness :
    ([[1, 2, 3]].foldl jitter_buffer_write jb0).count ≤ JCAP ∧
    (jitter_buffer_read ([[1, 2, 3]].foldl jitter_buffer_write jb0)
        ([[1, 2, 3]].foldl jitter_buffer_write jb0).count).1
      = (flat [[1, 2, 3]]).drop
          ((flat [[1, 2, 3]]).length - ([[1, 2, 3]].foldl jitter_buffer_write jb0).count) := by
  exact jitter_buffer_coverage [[1, 2, 3]] (by decide)

/-- Along any interleaving whose every prefix keeps the jitter-buffer level
below the prefill threshold, the playback task neither latches
`g_playback_started` nor hands any chunk to the hardware sink. -/
theorem spk_no_play_aux (es : List SpkEv)
    (h : ∀ n, jitter_buffer_level (spk_run (es.take n)).jb < PREFILL_THRESHOLD) :
    (spk_run es).playback_started = false ∧ (spk_run es).sink = [] := by
  induction es using List.reverseRecOn with
  | nil => exact ⟨rfl, rfl⟩
  | append_singleton es e ih =>
    have hpre : ∀ n, jitter_buffer_level (spk_run (es.take n)).jb < PREFILL_THRESHOLD := by
      intro n
      rcases le_or_lt n es.length with hn | hn
      · have hx := h n
        rwa [List.take_append_of_le_length hn] at hx
      · have hx := h es.length
        rw [List.take_append_of_le_length (le_refl _), List.take_length] at hx
        rwa [List.take_of_length_le (by omega)]
    obtain ⟨hs, hk⟩ := ih hpre
    have hrun : spk_run (es ++ [e]) = spk_step (spk_run es) e := by
      simp [spk_run]
    rw [hrun]
    cases e with
    | recv d =>
      constructor <;> simp only [spk_step, speaker_rx_step] <;>
        split_ifs <;> simp [hs, hk]
    | tick ok =>
      have hlvl := hpre es.length
      rw [List.take_length] at hlvl
      have hnot : ¬ PREFILL_THRESHOLD ≤ jitter_buffer_level (spk_run es).jb := by omega
      constructor <;> simp [spk_step, speaker_playback_tick, hs, hnot, hk]

/-- Claim C3: (a) the playback task hands no chunk to the hardware sink on any
run in which the jitter-buffer level never reaches the 16000-byte prefill
threshold; (b) once primed, a playback iteration that finds fewer than one
640-byte chunk buffered increments the underrun counter and hands nothing
to the sink. -/
theorem speaker_prefill_gate :
    (∀ es : List SpkEv,
      (∀ n, jitter_buffer_level (spk_run (es.take n)).jb < PREFILL_THRESHOLD) →
      (spk_run es).sink = []) ∧
    (∀ (s : SpkState) (ok : Bool), s.playback_started = true →
      jitter_buffer_level s.jb < PLAYBACK_CHUNK_SIZE →
      (speaker_playback_tick s ok).underruns = s.underruns + 1 ∧
      (speaker_playback_tick s ok).sink = s.sink) := by
  constructor
  · intro es h
    exact (spk_no_play_aux es h).2
  · intro s ok hs hl
    have hnot : ¬ PLAYBACK_CHUNK_SIZE ≤ jitter_buffer_level s.jb := by omega
    constructor <;> simp [speaker_playback_tick, hs, hnot]

/-- Witness for C3: the empty run hands nothing to the sink, and a primed
state with an empty jitter buffer records one underrun without playing. -/
theorem speaker_prefill_gate_witness :
    (spk_run []).sink = [] ∧
    (speaker_playback_tick ⟨jb0, true, 0, 0, 0, 0, []⟩ true).underruns
      = (⟨jb0, true, 0, 0, 0, 0, []⟩ : SpkState).underruns + 1 ∧
    (speaker_playback_tick ⟨jb0, true, 0, 0, 0, 0, []⟩ true).sink
      = (⟨jb0, true, 0, 0, 0, 0, []⟩ : SpkState).sink := by
  have h2 := speaker_prefill_gate.2 ⟨jb0, true, 0, 0, 0, 0, []⟩ true rfl (by decide)
  refine ⟨speaker_prefill_gate.1 [] ?_, h2.1, h2.2⟩
  intro n
  rw [List.take_nil]
  decide
